import Mathlib

/-!
Verification of the AirplaneTracking core (src/AirplaneTracking/main.py).

Shallow embedding conventions:
* Python floats are modelled as exact rationals `ℚ`; the claims examined here
  concern exact equalities and inequalities that hold or fail already in exact
  arithmetic.
* Python's `int(x)` truncation toward zero is modelled by `pyInt`.
* Code that can raise (`geo_to_screen` dividing by zero on degenerate bounds)
  returns an `Option`, with `none` standing for the raised exception.
* The OpenSky state vector is modelled as a record of `Option` fields, per the
  feed contract (any optional field may be absent); the `try/except` wrapper of
  `parse_airplane_data` is absorbed into the `Option` result.
* Python's insertion-ordered `dict` of airplanes is modelled as an association
  list (`Store`); lookup and in-place update act on the first matching key.
-/

/-- Screen width constant from main.py. -/
def SCREEN_WIDTH : ℕ := 1200

/-- Screen height constant from main.py. -/
def SCREEN_HEIGHT : ℕ := 800

/-- Asia region minimum latitude. -/
def ASIA_MIN_LAT : ℚ := -10

/-- Asia region maximum latitude. -/
def ASIA_MAX_LAT : ℚ := 55

/-- Asia region minimum longitude. -/
def ASIA_MIN_LON : ℚ := 60

/-- Asia region maximum longitude. -/
def ASIA_MAX_LON : ℚ := 150

/-- Seconds between API calls (rate limit floor). -/
def API_UPDATE_INTERVAL : ℚ := 10

/-- Number of interpolation steps for smooth movement. -/
def INTERPOLATION_STEPS : ℕ := 30

/-- Python's `int()` applied to a float: truncation toward zero. -/
def pyInt (q : ℚ) : ℤ := if 0 ≤ q then ⌊q⌋ else ⌈q⌉

/-- Source `linear_interpolation(start, end, t) = start + (end - start) * t`. -/
def linear_interpolation (s e t : ℚ) : ℚ := s + (e - s) * t

/-- The fields stored by `CoordinateTransformer.__init__` (which performs no
validation whatsoever). -/
structure CoordinateTransformer where
  min_lat : ℚ
  max_lat : ℚ
  min_lon : ℚ
  max_lon : ℚ
  screen_width : ℕ
  screen_height : ℕ
  zoom : ℚ
  pan_x : ℚ
  pan_y : ℚ
deriving DecidableEq

/-- Constructor `CoordinateTransformer.__init__`: stores all parameters verbatim, with no
check on the bounds. -/
def CoordinateTransformer.init (min_lat max_lat min_lon max_lon : ℚ)
    (screen_width screen_height : ℕ) (zoom pan_x pan_y : ℚ) :
    CoordinateTransformer :=
  ⟨min_lat, max_lat, min_lon, max_lon, screen_width, screen_height, zoom, pan_x, pan_y⟩

/-- Method `CoordinateTransformer.geo_to_screen`: normalize, scale to the viewport,
zoom about the center, pan, truncate to ints.  In Python the two divisions
raise `ZeroDivisionError` when the bounds are degenerate; that exception is
modelled by the `none` result. -/
def CoordinateTransformer.geo_to_screen (c : CoordinateTransformer) (lat lon : ℚ) :
    Option (ℤ × ℤ) :=
  if c.max_lon - c.min_lon = 0 ∨ c.max_lat - c.min_lat = 0 then none
  else
    let norm_x := (lon - c.min_lon) / (c.max_lon - c.min_lon)
    let norm_y := (c.max_lat - lat) / (c.max_lat - c.min_lat)
    let center_x : ℚ := (c.screen_width : ℚ) / 2
    let center_y : ℚ := (c.screen_height : ℚ) / 2
    let x0 := norm_x * (c.screen_width : ℚ)
    let y0 := norm_y * (c.screen_height : ℚ)
    let x1 := center_x + (x0 - center_x) * c.zoom
    let y1 := center_y + (y0 - center_y) * c.zoom
    some (pyInt (x1 + c.pan_x), pyInt (y1 + c.pan_y))

/-- The transformer the application constructs at startup: Asia bounds, the
1200 by 800 screen, zoom 1, pan (0, 0). -/
def asiaTransformer : CoordinateTransformer :=
  CoordinateTransformer.init ASIA_MIN_LAT ASIA_MAX_LAT ASIA_MIN_LON ASIA_MAX_LON
    SCREEN_WIDTH SCREEN_HEIGHT 1 0 0

/-- Color assignment of `Airplane.assign_color_by_callsign`: hash the first
three characters of the callsign (or "UNK") and derive an RGB triple. -/
def assign_color_by_callsign (callsign : String) : ℕ × ℕ × ℕ :=
  let airline_code := if callsign.length ≥ 3 then callsign.take 3 else "UNK"
  let hash_val := (airline_code.data.map Char.toNat).sum
  ((hash_val * 67) % 200 + 55, (hash_val * 131) % 200 + 55, (hash_val * 197) % 200 + 55)

/-- State of one tracked airplane (class `Airplane`). -/
structure Airplane where
  icao24 : String
  callsign : String
  target_lat : ℚ
  target_lon : ℚ
  display_lat : ℚ
  display_lon : ℚ
  heading : ℚ
  altitude : ℚ
  velocity : ℚ
  interp_step : ℕ
  prev_lat : ℚ
  prev_lon : ℚ
  trail : List (ℚ × ℚ)
  max_trail_length : ℕ
  color : ℕ × ℕ × ℕ
deriving DecidableEq

/-- Constructor `Airplane.__init__`: a falsy (missing or empty) callsign becomes
"Unknown", otherwise the callsign is stripped; missing heading, altitude and
velocity each default to 0; display, previous and target positions all start
at the given position; the trail is seeded with that position. -/
def Airplane.init (icao24 : String) (callsign : Option String) (lat lon : ℚ)
    (heading altitude velocity : Option ℚ) : Airplane :=
  let cs := match callsign with
    | none => "Unknown"
    | some s => if s = "" then "Unknown" else s.trim
  { icao24 := icao24
    callsign := cs
    target_lat := lat
    target_lon := lon
    display_lat := lat
    display_lon := lon
    heading := heading.getD 0
    altitude := altitude.getD 0
    velocity := velocity.getD 0
    interp_step := 0
    prev_lat := lat
    prev_lon := lon
    trail := [(lat, lon)]
    max_trail_length := 20
    color := assign_color_by_callsign cs }

/-- Method `Airplane.update_target`: previous position becomes the current display
position, the target is replaced, optional fields only overwrite when present,
the interpolation step resets, and the new position is appended to the trail,
popping the oldest entry if the bound is exceeded. -/
def Airplane.update_target (a : Airplane) (lat lon : ℚ)
    (heading altitude velocity : Option ℚ) : Airplane :=
  let trail1 := a.trail ++ [(lat, lon)]
  { a with
    prev_lat := a.display_lat
    prev_lon := a.display_lon
    target_lat := lat
    target_lon := lon
    heading := heading.getD a.heading
    altitude := altitude.getD a.altitude
    velocity := velocity.getD a.velocity
    interp_step := 0
    trail := if trail1.length > a.max_trail_length then trail1.tail else trail1 }

/-- Method `Airplane.interpolate`: while `interp_step < INTERPOLATION_STEPS`, move the
display position to `lerp(prev, target, interp_step / INTERPOLATION_STEPS)` and
increment the step; once the step counter has reached the bound, pin the
display position to the target. -/
def Airplane.interpolate (a : Airplane) : Airplane :=
  if a.interp_step < INTERPOLATION_STEPS then
    let t : ℚ := (a.interp_step : ℚ) / (INTERPOLATION_STEPS : ℚ)
    { a with
      display_lat := linear_interpolation a.prev_lat a.target_lat t
      display_lon := linear_interpolation a.prev_lon a.target_lon t
      interp_step := a.interp_step + 1 }
  else
    { a with
      display_lat := a.target_lat
      display_lon := a.target_lon }

/-- One raw OpenSky state vector, restricted to the indices the program reads
(0 icao24, 1 callsign, 2 origin_country, 5 longitude, 6 latitude,
7 baro_altitude, 9 velocity, 10 true_track).  Per the feed contract each
optional field may be absent on any record. -/
structure StateVector where
  icao24 : String
  callsign : Option String
  origin_country : Option String
  longitude : Option ℚ
  latitude : Option ℚ
  baro_altitude : Option ℚ
  velocity : Option ℚ
  true_track : Option ℚ
deriving DecidableEq

/-- The dictionary built by `parse_airplane_data` for one usable record. -/
structure AirplaneData where
  icao24 : String
  callsign : String
  country : Option String
  longitude : ℚ
  latitude : ℚ
  altitude : Option ℚ
  velocity : Option ℚ
  heading : Option ℚ
deriving DecidableEq

/-- Method `AviationAPIFetcher.parse_airplane_data`: a record with either coordinate
missing is rejected, a record outside the Asia bounds is rejected, a falsy
callsign is replaced by "N/A"; the surrounding `try/except` (whose remaining
failure modes cannot arise for a well-typed state vector) is absorbed into the
`Option` result. -/
def parse_airplane_data (v : StateVector) : Option AirplaneData :=
  match v.longitude, v.latitude with
  | some lon, some lat =>
    if ASIA_MIN_LAT ≤ lat ∧ lat ≤ ASIA_MAX_LAT ∧ ASIA_MIN_LON ≤ lon ∧ lon ≤ ASIA_MAX_LON then
      some { icao24 := v.icao24
             callsign := match v.callsign with
               | none => "N/A"
               | some s => if s = "" then "N/A" else s
             country := v.origin_country
             longitude := lon
             latitude := lat
             altitude := v.baro_altitude
             velocity := v.velocity
             heading := v.true_track }
    else none
  | _, _ => none

/-- Mutable state of `AviationAPIFetcher`: the timestamp of the last
successful fetch and the cached snapshot. -/
structure AviationAPIFetcher where
  last_fetch_time : ℚ
  cache_data : List StateVector
deriving DecidableEq

/-- Outcome of one attempted HTTP request: a 200 response carrying a list of
state vectors, or a failure (non-200 status or a raised exception - the code
treats both identically). -/
inductive FetchOutcome where
  | success (states : List StateVector)
  | failure
deriving DecidableEq

/-- Result of `fetch_airplanes`: the new fetcher state, the returned snapshot,
and whether an HTTP request was actually issued. -/
structure FetchResult where
  state : AviationAPIFetcher
  data : List StateVector
  requestMade : Bool
deriving DecidableEq

/-- Method `AviationAPIFetcher.fetch_airplanes`: if less than `API_UPDATE_INTERVAL`
has elapsed since the last *successful* fetch, return the cache without a
request; otherwise issue the request; on success cache the data and record the
fetch time; on failure return the stale cache and leave the fetcher state
(including `last_fetch_time`) unchanged. -/
def AviationAPIFetcher.fetch_airplanes (f : AviationAPIFetcher) (now : ℚ)
    (outcome : FetchOutcome) : FetchResult :=
  if now - f.last_fetch_time < API_UPDATE_INTERVAL then
    ⟨f, f.cache_data, false⟩
  else
    match outcome with
    | .success states => ⟨⟨now, states⟩, states, true⟩
    | .failure => ⟨f, f.cache_data, true⟩

/-- The insertion-ordered dictionary `self.airplanes`. -/
abbrev Store := List (String × Airplane)

/-- Dictionary lookup: value at the first matching key. -/
def storeLookup : Store → String → Option Airplane
  | [], _ => none
  | (k2, a) :: rest, k => if k2 = k then some a else storeLookup rest k

/-- Dictionary in-place value update at the first matching key (no insertion). -/
def storeSet : Store → String → Airplane → Store
  | [], _, _ => []
  | (k2, a2) :: rest, k, a =>
    if k2 = k then (k2, a) :: rest else (k2, a2) :: storeSet rest k a

/-- Applying one parsed record to an existing airplane is an `update_target`
call with the record's fields. -/
def applyRecord (d : AirplaneData) (a : Airplane) : Airplane :=
  a.update_target d.latitude d.longitude d.heading d.altitude d.velocity

/-- A new airplane constructed from one parsed record. -/
def planeFromRecord (d : AirplaneData) : Airplane :=
  Airplane.init d.icao24 (some d.callsign) d.latitude d.longitude d.heading d.altitude d.velocity

/-- The per-record loop of `update_airplanes`: parse each state vector,
skip unusable ones, update the matching airplane or insert a new one, and
collect the icao24 keys seen in this snapshot. -/
def processRecords : Store → List StateVector → Store × List String
  | s, [] => (s, [])
  | s, v :: vs =>
    match parse_airplane_data v with
    | none => processRecords s vs
    | some d =>
      let s2 := match storeLookup s d.icao24 with
        | some a => storeSet s d.icao24 (applyRecord d a)
        | none => s ++ [(d.icao24, planeFromRecord d)]
      let r := processRecords s2 vs
      (r.1, d.icao24 :: r.2)

/-- The keys appearing in the parsed records of a snapshot (the contents of
`current_icao_list`). -/
def seenKeys (raw : List StateVector) : List String :=
  (raw.filterMap parse_airplane_data).map AirplaneData.icao24

/-- The retention predicate of the eviction step: an airplane is kept when its
key was seen in the current snapshot or at most 60 seconds have passed since
`last_api_update`. -/
def keepPred (seen : List String) (now last_api_update : ℚ) (k : String) : Bool :=
  decide (k ∈ seen ∨ now - last_api_update ≤ 60)

/-- Method `AirplaneTrackingApp.update_airplanes`, with the snapshot obtained from the
fetcher passed in as `raw`: process all records, then delete every airplane
that was not seen in this snapshot, provided more than 60 seconds have passed
since `last_api_update`. -/
def update_airplanes (s : Store) (raw : List StateVector) (now last_api_update : ℚ) :
    Store :=
  (processRecords s raw).1.filter
    (fun p => keepPred (processRecords s raw).2 now last_api_update p.1)

/-- The mutable state of `AirplaneTrackingApp` that the update phase of the
main loop touches. -/
structure AppState where
  airplanes : Store
  api_fetcher : AviationAPIFetcher
  last_api_update : ℚ
deriving DecidableEq

/-- One pass of the update phase of `AirplaneTrackingApp.run`: interpolate all
airplanes; then, if at least `API_UPDATE_INTERVAL` seconds have passed since
`last_api_update`, fetch a snapshot (with the given request outcome), run
`update_airplanes`, and set `last_api_update := now` - note that this
timestamp advances regardless of whether the fetch succeeded. -/
def runTick (st : AppState) (now : ℚ) (outcome : FetchOutcome) : AppState :=
  let planes := st.airplanes.map (fun p => (p.1, p.2.interpolate))
  if now - st.last_api_update ≥ API_UPDATE_INTERVAL then
    let fr := st.api_fetcher.fetch_airplanes now outcome
    ⟨update_airplanes planes fr.data now st.last_api_update, fr.state, now⟩
  else
    ⟨planes, st.api_fetcher, st.last_api_update⟩

/-- Observation of one `runTick`: whether the tick issued an HTTP request.
In the program, `requests.get` executes only inside `fetch_airplanes`, whose
sole call site is `update_airplanes`, reached only through the gated branch of
the main loop; `requestMade` of the fetch result records whether the request
was actually issued (rather than the cache being returned). -/
def runTickRequested (st : AppState) (now : ℚ) (outcome : FetchOutcome) : Bool :=
  if now - st.last_api_update ≥ API_UPDATE_INTERVAL then
    (st.api_fetcher.fetch_airplanes now outcome).requestMade
  else false

/-- A sequence of update-phase passes of the main loop, one per
(timestamp, request outcome) event. -/
def runTicks (st : AppState) (evs : List (ℚ × FetchOutcome)) : AppState :=
  evs.foldl (fun s e => runTick s e.1 e.2) st

/-- The airplane states reachable through the program's three mutations:
construction, `update_target` on a new snapshot record, and per-frame
`interpolate`. -/
inductive ReachableAirplane : Airplane → Prop where
  | init : ∀ (icao : String) (cs : Option String) (lat lon : ℚ) (hd alt v : Option ℚ),
      ReachableAirplane (Airplane.init icao cs lat lon hd alt v)
  | update : ∀ (a : Airplane) (lat lon : ℚ) (hd alt v : Option ℚ),
      ReachableAirplane a → ReachableAirplane (a.update_target lat lon hd alt v)
  | interp : ∀ a : Airplane, ReachableAirplane a → ReachableAirplane a.interpolate

/-- A concrete airplane that has just received a fresh target: created at
(0, 0), then updated to target (1, 1). -/
def planeA : Airplane :=
  (Airplane.init "abc" (some "TST") 0 0 none none none).update_target 1 1 none none none

/-- A second concrete airplane: created at (2, 3), then updated to target
(5, 7). -/
def planeB : Airplane :=
  (Airplane.init "def" (some "XYZ") 2 3 none none none).update_target 5 7 none none none

/-- A usable raw record for airplane "abc" at latitude 20, longitude 100
(inside the Asia bounds). -/
def recA : StateVector := ⟨"abc", some "TST", none, some 100, some 20, none, none, none⟩

/-- The airplane created from `recA`. -/
def planeRecA : Airplane := Airplane.init "abc" (some "TST") 20 100 none none none

/-- Trace for claim C2: start from an idle app state. -/
def c2s0 : AppState := ⟨[], ⟨-100, []⟩, -100⟩

/-- Tick at t = 0: a successful snapshot containing airplane "abc". -/
def c2s1 : AppState := runTick c2s0 0 (.success [recA])

/-- Tick at t = 10: a successful snapshot from which "abc" is absent.  This is
the last successful snapshot of the trace. -/
def c2s2 : AppState := runTick c2s1 10 (.success [])

/-- Ticks at t = 20 .. 80: every fetch attempt fails, so the cached (empty)
snapshot is reused, while `last_api_update` keeps advancing. -/
def c2s3 : AppState := runTick c2s2 20 .failure

/-- Tick at t = 30 of the claim C2 trace. -/
def c2s4 : AppState := runTick c2s3 30 .failure

/-- Tick at t = 40 of the claim C2 trace. -/
def c2s5 : AppState := runTick c2s4 40 .failure

/-- Tick at t = 50 of the claim C2 trace. -/
def c2s6 : AppState := runTick c2s5 50 .failure

/-- Tick at t = 60 of the claim C2 trace. -/
def c2s7 : AppState := runTick c2s6 60 .failure

/-- Tick at t = 70 of the claim C2 trace. -/
def c2s8 : AppState := runTick c2s7 70 .failure

/-- Tick at t = 80 of the claim C2 trace: the first reconcile at which more
than 60 seconds have passed since the last successful snapshot (t = 10). -/
def c2s9 : AppState := runTick c2s8 80 .failure

/-- State of `planeRecA` after k frames of interpolation (its display position never
moves because previous, display and target positions coincide). -/
def planeRecAStep (k : ℕ) : Airplane := { planeRecA with interp_step := k }

/-- A record with no longitude. -/
def vNoLon : StateVector := ⟨"x1", none, none, none, some 20, none, none, none⟩

/-- A record with no latitude. -/
def vNoLat : StateVector := ⟨"x2", none, none, some 100, none, none, none, none⟩

/-- A record outside the Asia region (longitude 0 < 60). -/
def vOut : StateVector := ⟨"x3", none, none, some 0, some 0, none, none, none⟩

/-- The four position components of an airplane that claim C6 compares:
display latitude/longitude and target latitude/longitude. -/
def posProj (a : Airplane) : ℚ × ℚ × ℚ × ℚ :=
  (a.display_lat, a.display_lon, a.target_lat, a.target_lon)

/-- The parsed records of a snapshot whose key is `k`, in order. -/
def recordsFor (k : String) (raw : List StateVector) : List AirplaneData :=
  (raw.filterMap parse_airplane_data).filter (fun d => decide (d.icao24 = k))

/-- The effect of a list of same-key records on the store entry for that key:
an existing airplane receives one `update_target` per record; a missing entry
is created from the first record and updated by the rest. -/
def runRecords (a0 : Option Airplane) (ds : List AirplaneData) : Option Airplane :=
  match a0, ds with
  | some a, ds => some (ds.foldl (fun a d => applyRecord d a) a)
  | none, [] => none
  | none, d :: ds => some (ds.foldl (fun a d => applyRecord d a) (planeFromRecord d))

/-!  Lemmas about `Airplane.interpolate`. -/

theorem interpolate_lt_fields (a : Airplane) (h : a.interp_step < INTERPOLATION_STEPS) :
    a.interpolate.interp_step = a.interp_step + 1 ∧
    a.interpolate.prev_lat = a.prev_lat ∧
    a.interpolate.prev_lon = a.prev_lon ∧
    a.interpolate.target_lat = a.target_lat ∧
    a.interpolate.target_lon = a.target_lon ∧
    a.interpolate.display_lat =
      linear_interpolation a.prev_lat a.target_lat
        ((a.interp_step : ℚ) / (INTERPOLATION_STEPS : ℚ)) ∧
    a.interpolate.display_lon =
      linear_interpolation a.prev_lon a.target_lon
        ((a.interp_step : ℚ) / (INTERPOLATION_STEPS : ℚ)) := by
  simp [Airplane.interpolate, h]

theorem interpolate_pin (a : Airplane) (h : INTERPOLATION_STEPS ≤ a.interp_step) :
    a.interpolate =
      { a with display_lat := a.target_lat, display_lon := a.target_lon } := by
  simp [Airplane.interpolate, Nat.not_lt.mpr h]

theorem interpolate_fixed (a : Airplane) (h : INTERPOLATION_STEPS ≤ a.interp_step)
    (h1 : a.display_lat = a.target_lat) (h2 : a.display_lon = a.target_lon) :
    a.interpolate = a := by
  rw [interpolate_pin a h]
  cases a
  simp_all

theorem interpolate_iterate_core (m : ℕ) :
    ∀ a : Airplane, a.interp_step + m ≤ INTERPOLATION_STEPS →
      (Airplane.interpolate^[m] a).interp_step = a.interp_step + m ∧
      (Airplane.interpolate^[m] a).prev_lat = a.prev_lat ∧
      (Airplane.interpolate^[m] a).prev_lon = a.prev_lon ∧
      (Airplane.interpolate^[m] a).target_lat = a.target_lat ∧
      (Airplane.interpolate^[m] a).target_lon = a.target_lon ∧
      (Airplane.interpolate^[m] a).display_lat =
        (if m = 0 then a.display_lat else
          linear_interpolation a.prev_lat a.target_lat
            (((a.interp_step + m - 1 : ℕ) : ℚ) / (INTERPOLATION_STEPS : ℚ))) ∧
      (Airplane.interpolate^[m] a).display_lon =
        (if m = 0 then a.display_lon else
          linear_interpolation a.prev_lon a.target_lon
            (((a.interp_step + m - 1 : ℕ) : ℚ) / (INTERPOLATION_STEPS : ℚ))) := by
  induction m with
  | zero => intro a _; simp
  | succ m ih =>
    intro a h
    have hlt : a.interp_step < INTERPOLATION_STEPS := by omega
    obtain ⟨e1, e2, e3, e4, e5, e6, e7⟩ := interpolate_lt_fields a hlt
    rw [Function.iterate_succ_apply]
    obtain ⟨f1, f2, f3, f4, f5, f6, f7⟩ := ih a.interpolate (by omega)
    refine ⟨by omega, by rw [f2, e2], by rw [f3, e3], by rw [f4, e4], by rw [f5, e5], ?_, ?_⟩
    · rw [f6]
      rcases Nat.eq_zero_or_pos m with hm | hm
      · subst hm
        simp only [if_pos rfl, if_neg (Nat.succ_ne_zero 0)]
        rw [e6]
        have : a.interp_step + 1 - 1 = a.interp_step := by omega
        rw [this]
        simp
      · rw [if_neg (by omega), if_neg (by omega), e2, e4, e1]
        have : a.interp_step + 1 + m - 1 = a.interp_step + (m + 1) - 1 := by omega
        rw [this]
    · rw [f7]
      rcases Nat.eq_zero_or_pos m with hm | hm
      · subst hm
        simp only [if_pos rfl, if_neg (Nat.succ_ne_zero 0)]
        rw [e7]
        have : a.interp_step + 1 - 1 = a.interp_step := by omega
        rw [this]
        simp
      · rw [if_neg (by omega), if_neg (by omega), e3, e5, e1]
        have : a.interp_step + 1 + m - 1 = a.interp_step + (m + 1) - 1 := by omega
        rw [this]

theorem reachable_interpolate_iterate (n : ℕ) (a : Airplane) (h : ReachableAirplane a) :
    ReachableAirplane (Airplane.interpolate^[n] a) := by
  induction n with
  | zero => simpa using h
  | succ n ih => rw [Function.iterate_succ_apply']; exact ReachableAirplane.interp _ ih

theorem reachable_basic_invariants (a : Airplane) (h : ReachableAirplane a) :
    a.interp_step ≤ INTERPOLATION_STEPS ∧ a.max_trail_length = 20 ∧ a.trail.length ≤ 20 := by
  induction h with
  | init icao cs lat lon hd alt v =>
    refine ⟨?_, rfl, ?_⟩ <;> simp [Airplane.init, INTERPOLATION_STEPS]
  | update a lat lon hd alt v _ ih =>
    obtain ⟨h1, h2, h3⟩ := ih
    refine ⟨by simp [Airplane.update_target], by simp [Airplane.update_target, h2], ?_⟩
    simp only [Airplane.update_target]
    split
    · rename_i hgt
      simp only [List.length_tail, List.length_append, List.length_singleton]
      omega
    · rename_i hle
      simp only [List.length_append, List.length_singleton] at hle ⊢
      omega
  | interp a _ ih =>
    obtain ⟨h1, h2, h3⟩ := ih
    by_cases hlt : a.interp_step < INTERPOLATION_STEPS
    · obtain ⟨e1, _⟩ := interpolate_lt_fields a hlt
      refine ⟨by omega, ?_, ?_⟩ <;> simp [Airplane.interpolate, hlt, h2, h3]
    · rw [interpolate_pin a (Nat.not_lt.mp hlt)]
      exact ⟨h1, h2, h3⟩

/-- Claim C1, counterexample: for the airplane `planeA` (previous position 0,
fresh target 1), after exactly INTERPOLATION_STEPS calls to `interpolate` the
display latitude is 29/30 - the last step used t = 29/30 - while the target
latitude is 1, so the display position is NOT pinned to the target yet. -/
theorem claim_C1_counterexample :
    (Airplane.interpolate^[INTERPOLATION_STEPS] planeA).display_lat = 29 / 30 ∧
    (Airplane.interpolate^[INTERPOLATION_STEPS] planeA).target_lat = 1 ∧
    (29 / 30 : ℚ) ≠ 1 := by
  have hstep : planeA.interp_step = 0 := by simp [planeA, Airplane.update_target]
  obtain ⟨g1, g2, g3, g4, g5, g6, g7⟩ :=
    interpolate_iterate_core INTERPOLATION_STEPS planeA (by rw [hstep]; simp)
  refine ⟨?_, ?_, by norm_num⟩
  · rw [g6, if_neg (by decide)]
    have hprev : planeA.prev_lat = 0 := by
      simp [planeA, Airplane.update_target, Airplane.init]
    have htgt : planeA.target_lat = 1 := by simp [planeA, Airplane.update_target]
    rw [hprev, htgt, hstep]
    norm_num [linear_interpolation, INTERPOLATION_STEPS]
  · rw [g4]
    simp [planeA, Airplane.update_target]

/-- Claim C1 (amended): after an `update_target` to (lat, lon), it takes
INTERPOLATION_STEPS + 1 calls to `interpolate` (not INTERPOLATION_STEPS) for
the display position to equal the target exactly; from then on every further
call leaves it pinned to the target. -/
theorem claim_C1_amended (a : Airplane) (lat lon : ℚ) (hd alt v : Option ℚ) (n : ℕ) :
    (Airplane.interpolate^[INTERPOLATION_STEPS + 1 + n]
        (a.update_target lat lon hd alt v)).display_lat = lat ∧
    (Airplane.interpolate^[INTERPOLATION_STEPS + 1 + n]
        (a.update_target lat lon hd alt v)).display_lon = lon := by
  have hb0 : (a.update_target lat lon hd alt v).interp_step = 0 := by
    simp [Airplane.update_target]
  have hbt1 : (a.update_target lat lon hd alt v).target_lat = lat := by
    simp [Airplane.update_target]
  have hbt2 : (a.update_target lat lon hd alt v).target_lon = lon := by
    simp [Airplane.update_target]
  obtain ⟨g1, g2, g3, g4, g5, g6, g7⟩ :=
    interpolate_iterate_core INTERPOLATION_STEPS (a.update_target lat lon hd alt v)
      (by rw [hb0]; simp)
  have hsum : INTERPOLATION_STEPS + 1 + n = n + (1 + INTERPOLATION_STEPS) := by omega
  rw [hsum, Function.iterate_add_apply, Function.iterate_add_apply, Function.iterate_one]
  generalize hgen : Airplane.interpolate^[INTERPOLATION_STEPS]
    (a.update_target lat lon hd alt v) = c at g1 g4 g5 ⊢
  have hc : c.interp_step = INTERPOLATION_STEPS := by rw [g1, hb0]; simp
  rw [interpolate_pin _ (le_of_eq hc.symm)]
  have hfix := interpolate_fixed
    { c with display_lat := c.target_lat, display_lon := c.target_lon }
    (by simpa using le_of_eq hc.symm) (by simp) (by simp)
  rw [Function.iterate_fixed hfix]
  constructor
  · show c.target_lat = lat
    rw [g4]
    exact hbt1
  · show c.target_lon = lon
    rw [g5]
    exact hbt2

/-- Claim C7, counterexample: the reachable airplane obtained from `planeB`
by exactly INTERPOLATION_STEPS `interpolate` calls has
`interp_step = INTERPOLATION_STEPS` but its display position differs from its
target position, so the claimed invariant "display equals target whenever
interp_step = INTERPOLATION_STEPS" does not hold. -/
theorem claim_C7_counterexample :
    ReachableAirplane (Airplane.interpolate^[INTERPOLATION_STEPS] planeB) ∧
    (Airplane.interpolate^[INTERPOLATION_STEPS] planeB).interp_step = INTERPOLATION_STEPS ∧
    (Airplane.interpolate^[INTERPOLATION_STEPS] planeB).display_lat ≠
      (Airplane.interpolate^[INTERPOLATION_STEPS] planeB).target_lat := by
  have hreach : ReachableAirplane planeB :=
    ReachableAirplane.update _ 5 7 none none none
      (ReachableAirplane.init "def" (some "XYZ") 2 3 none none none)
  have hstep : planeB.interp_step = 0 := by simp [planeB, Airplane.update_target]
  obtain ⟨g1, g2, g3, g4, g5, g6, g7⟩ :=
    interpolate_iterate_core INTERPOLATION_STEPS planeB (by rw [hstep]; simp)
  refine ⟨reachable_interpolate_iterate _ _ hreach, by rw [g1, hstep]; simp, ?_⟩
  rw [g6, g4, if_neg (by decide)]
  have hprev : planeB.prev_lat = 2 := by
    simp [planeB, Airplane.update_target, Airplane.init]
  have htgt : planeB.target_lat = 5 := by simp [planeB, Airplane.update_target]
  rw [hprev, htgt, hstep]
  norm_num [linear_interpolation, INTERPOLATION_STEPS]

/-- Claim C7 (amended): for every reachable airplane state,
`0 ≤ interp_step ≤ INTERPOLATION_STEPS` and `trail.length ≤ 20` hold, the
trail is FIFO (update appends the new position and drops the oldest entry when
the bound is exceeded), and once `interp_step = INTERPOLATION_STEPS` the NEXT
`interpolate` call (rather than the current state) pins the display position
to the target position. -/
theorem claim_C7_amended (a : Airplane) (h : ReachableAirplane a) :
    (0 ≤ a.interp_step ∧ a.interp_step ≤ INTERPOLATION_STEPS) ∧
    a.trail.length ≤ 20 ∧
    a.max_trail_length = 20 ∧
    (∀ (lat lon : ℚ) (hd alt v : Option ℚ),
      (a.update_target lat lon hd alt v).trail =
        (if (a.trail ++ [(lat, lon)]).length > a.max_trail_length
         then (a.trail ++ [(lat, lon)]).tail else a.trail ++ [(lat, lon)])) ∧
    (a.interp_step = INTERPOLATION_STEPS →
      a.interpolate.display_lat = a.target_lat ∧
      a.interpolate.display_lon = a.target_lon) := by
  obtain ⟨h1, h2, h3⟩ := reachable_basic_invariants a h
  refine ⟨⟨Nat.zero_le _, h1⟩, h3, h2, ?_, ?_⟩
  · intro lat lon hd alt v
    simp [Airplane.update_target]
  · intro hs
    rw [interpolate_pin a (le_of_eq hs.symm)]
    exact ⟨rfl, rfl⟩

/-- Claim C7, witness: the amended invariants instantiated at the concrete
reachable airplane `planeRecA`. -/
theorem claim_C7_witness :
    (0 ≤ planeRecA.interp_step ∧ planeRecA.interp_step ≤ INTERPOLATION_STEPS) ∧
    planeRecA.trail.length ≤ 20 ∧
    planeRecA.max_trail_length = 20 ∧
    (∀ (lat lon : ℚ) (hd alt v : Option ℚ),
      (planeRecA.update_target lat lon hd alt v).trail =
        (if (planeRecA.trail ++ [(lat, lon)]).length > planeRecA.max_trail_length
         then (planeRecA.trail ++ [(lat, lon)]).tail else planeRecA.trail ++ [(lat, lon)])) ∧
    (planeRecA.interp_step = INTERPOLATION_STEPS →
      planeRecA.interpolate.display_lat = planeRecA.target_lat ∧
      planeRecA.interpolate.display_lon = planeRecA.target_lon) :=
  claim_C7_amended planeRecA (ReachableAirplane.init "abc" (some "TST") 20 100 none none none)

/-- Claim C8: `update_target` copies the current display position into the
previous position, replaces the target with the new coordinates, overwrites
heading, altitude and velocity only when the new value is present, resets the
interpolation step to 0, appends the new position to the trail (dropping the
oldest entry when the bound is exceeded), and leaves the display position
untouched. -/
theorem claim_C8_update_target (a : Airplane) (lat lon : ℚ) (hd alt v : Option ℚ) :
    (a.update_target lat lon hd alt v).prev_lat = a.display_lat ∧
    (a.update_target lat lon hd alt v).prev_lon = a.display_lon ∧
    (a.update_target lat lon hd alt v).target_lat = lat ∧
    (a.update_target lat lon hd alt v).target_lon = lon ∧
    (a.update_target lat lon hd alt v).heading = hd.getD a.heading ∧
    (a.update_target lat lon hd alt v).altitude = alt.getD a.altitude ∧
    (a.update_target lat lon hd alt v).velocity = v.getD a.velocity ∧
    (a.update_target lat lon hd alt v).interp_step = 0 ∧
    (a.update_target lat lon hd alt v).trail =
      (if (a.trail ++ [(lat, lon)]).length > a.max_trail_length
       then (a.trail ++ [(lat, lon)]).tail else a.trail ++ [(lat, lon)]) ∧
    (a.update_target lat lon hd alt v).display_lat = a.display_lat ∧
    (a.update_target lat lon hd alt v).display_lon = a.display_lon := by
  refine ⟨rfl, rfl, rfl, rfl, rfl, rfl, rfl, rfl, rfl, rfl, rfl⟩

/-- Claim C10: the `Airplane` constructor stores 0 for a missing heading,
altitude or velocity - so a constructed airplane with missing optional fields
is literally equal to one constructed with genuine zeros - and a missing or
empty callsign becomes "Unknown". -/
theorem claim_C10_init_defaults (icao : String) (cs : Option String) (lat lon : ℚ)
    (hd alt v : Option ℚ) :
    Airplane.init icao cs lat lon none none none
      = Airplane.init icao cs lat lon (some 0) (some 0) (some 0) ∧
    (Airplane.init icao cs lat lon hd alt v).heading = hd.getD 0 ∧
    (Airplane.init icao cs lat lon hd alt v).altitude = alt.getD 0 ∧
    (Airplane.init icao cs lat lon hd alt v).velocity = v.getD 0 ∧
    (Airplane.init icao none lat lon hd alt v).callsign = "Unknown" ∧
    (Airplane.init icao (some "") lat lon hd alt v).callsign = "Unknown" := by
  refine ⟨rfl, rfl, rfl, rfl, rfl, ?_⟩
  simp [Airplane.init]

/-!  Lemmas about the airplane dictionary. -/

theorem storeLookup_isSome_iff (s : Store) (k : String) :
    (storeLookup s k).isSome ↔ k ∈ s.map Prod.fst := by
  induction s with
  | nil => simp [storeLookup]
  | cons p rest ih =>
    obtain ⟨k2, a⟩ := p
    by_cases hk : k2 = k
    · subst hk; simp [storeLookup]
    · simp [storeLookup, hk, ih, Ne.symm hk]

theorem storeLookup_set_self (s : Store) (k : String) (b : Airplane) (a : Airplane)
    (h : storeLookup s k = some a) : storeLookup (storeSet s k b) k = some b := by
  induction s with
  | nil => simp [storeLookup] at h
  | cons p rest ih =>
    obtain ⟨k2, a2⟩ := p
    by_cases hk : k2 = k
    · subst hk; simp [storeLookup, storeSet]
    · simp only [storeLookup, if_neg hk] at h
      simp only [storeSet, if_neg hk, storeLookup]
      exact ih h

theorem storeLookup_set_ne (s : Store) (k k' : String) (b : Airplane) (h : k' ≠ k) :
    storeLookup (storeSet s k b) k' = storeLookup s k' := by
  induction s with
  | nil => rfl
  | cons p rest ih =>
    obtain ⟨k2, a2⟩ := p
    by_cases hk : k2 = k
    · subst hk
      simp only [storeSet, if_pos rfl, storeLookup, if_neg (Ne.symm h)]
    · simp only [storeSet, if_neg hk, storeLookup]
      split
      · rfl
      · exact ih

theorem storeSet_map_fst (s : Store) (k : String) (b : Airplane) :
    (storeSet s k b).map Prod.fst = s.map Prod.fst := by
  induction s with
  | nil => rfl
  | cons p rest ih =>
    obtain ⟨k2, a2⟩ := p
    by_cases hk : k2 = k
    · subst hk; simp [storeSet]
    · simp [storeSet, hk, ih]

theorem storeLookup_append_self (s : Store) (k : String) (b : Airplane)
    (h : storeLookup s k = none) : storeLookup (s ++ [(k, b)]) k = some b := by
  induction s with
  | nil => simp [storeLookup]
  | cons p rest ih =>
    obtain ⟨k2, a2⟩ := p
    by_cases hk : k2 = k
    · subst hk; simp [storeLookup] at h
    · simp only [storeLookup, if_neg hk] at h
      simp only [List.cons_append, storeLookup, if_neg hk]
      exact ih h

theorem storeLookup_append_ne (s : Store) (k k' : String) (b : Airplane) (h : k' ≠ k) :
    storeLookup (s ++ [(k, b)]) k' = storeLookup s k' := by
  induction s with
  | nil => simp [storeLookup, Ne.symm h]
  | cons p rest ih =>
    obtain ⟨k2, a2⟩ := p
    simp only [List.cons_append, storeLookup]
    split
    · rfl
    · exact ih

theorem storeLookup_filter (P : String → Bool) (s : Store) (k : String) :
    storeLookup (s.filter (fun p => P p.1)) k = if P k then storeLookup s k else none := by
  induction s with
  | nil => simp [storeLookup]
  | cons p rest ih =>
    obtain ⟨k2, a⟩ := p
    by_cases hP : P k2
    · by_cases hk : k2 = k
      · subst hk; simp [List.filter_cons, hP, storeLookup]
      · simp [List.filter_cons, hP, storeLookup, hk, ih]
    · by_cases hk : k2 = k
      · subst hk
        simp only [List.filter_cons, Bool.not_eq_true] at *
        rw [if_neg (by simpa using hP)]
        rw [ih]
        simp [storeLookup, hP]
      · simp [List.filter_cons, hP, storeLookup, hk, ih]

theorem seenKeys_cons_none (v : StateVector) (vs : List StateVector)
    (h : parse_airplane_data v = none) : seenKeys (v :: vs) = seenKeys vs := by
  simp [seenKeys, List.filterMap_cons, h]

theorem seenKeys_cons_some (v : StateVector) (vs : List StateVector) (d : AirplaneData)
    (h : parse_airplane_data v = some d) :
    seenKeys (v :: vs) = d.icao24 :: seenKeys vs := by
  simp [seenKeys, List.filterMap_cons, h]

theorem processRecords_snd (raw : List StateVector) :
    ∀ s : Store, (processRecords s raw).2 = seenKeys raw := by
  induction raw with
  | nil => intro s; simp [processRecords, seenKeys]
  | cons v vs ih =>
    intro s
    cases hp : parse_airplane_data v with
    | none => simp only [processRecords, hp]; rw [ih, seenKeys_cons_none v vs hp]
    | some d => simp only [processRecords, hp]; rw [ih, seenKeys_cons_some v vs d hp]

theorem recordsFor_cons_none (k : String) (v : StateVector) (vs : List StateVector)
    (h : parse_airplane_data v = none) : recordsFor k (v :: vs) = recordsFor k vs := by
  simp [recordsFor, List.filterMap_cons, h]

theorem recordsFor_cons_some_eq (k : String) (v : StateVector) (vs : List StateVector)
    (d : AirplaneData) (h : parse_airplane_data v = some d) (hk : d.icao24 = k) :
    recordsFor k (v :: vs) = d :: recordsFor k vs := by
  simp [recordsFor, List.filterMap_cons, h, List.filter_cons, hk]

theorem recordsFor_cons_some_ne (k : String) (v : StateVector) (vs : List StateVector)
    (d : AirplaneData) (h : parse_airplane_data v = some d) (hk : ¬ d.icao24 = k) :
    recordsFor k (v :: vs) = recordsFor k vs := by
  simp [recordsFor, List.filterMap_cons, h, List.filter_cons, hk]

theorem mem_seenKeys_iff (k : String) (raw : List StateVector) :
    k ∈ seenKeys raw ↔ recordsFor k raw ≠ [] := by
  induction raw with
  | nil => simp [seenKeys, recordsFor]
  | cons v vs ih =>
    cases hp : parse_airplane_data v with
    | none => rw [seenKeys_cons_none v vs hp, recordsFor_cons_none k v vs hp]; exact ih
    | some d =>
      rw [seenKeys_cons_some v vs d hp]
      by_cases hk : d.icao24 = k
      · rw [recordsFor_cons_some_eq k v vs d hp hk]
        simp [hk]
      · rw [recordsFor_cons_some_ne k v vs d hp hk]
        simp only [List.mem_cons, ih]
        constructor
        · rintro (h1 | h1)
          · exact absurd h1.symm hk
          · exact h1
        · exact Or.inr

theorem processRecords_lookup_not_seen (raw : List StateVector) :
    ∀ (s : Store) (k : String), k ∉ seenKeys raw →
      storeLookup (processRecords s raw).1 k = storeLookup s k := by
  induction raw with
  | nil => intro s k _; rfl
  | cons v vs ih =>
    intro s k hk
    cases hp : parse_airplane_data v with
    | none =>
      simp only [processRecords, hp]
      exact ih s k (by rwa [seenKeys_cons_none v vs hp] at hk)
    | some d =>
      rw [seenKeys_cons_some v vs d hp, List.mem_cons, not_or] at hk
      simp only [processRecords, hp]
      cases hl : storeLookup s d.icao24 with
      | some a =>
        simp only [hl]
        rw [ih _ k hk.2, storeLookup_set_ne _ _ _ _ hk.1]
      | none =>
        simp only [hl]
        rw [ih _ k hk.2, storeLookup_append_ne _ _ _ _ hk.1]

theorem processRecords_map_fst (raw : List StateVector) :
    ∀ s : Store, (∀ k ∈ seenKeys raw, k ∈ s.map Prod.fst) →
      (processRecords s raw).1.map Prod.fst = s.map Prod.fst := by
  induction raw with
  | nil => intro s _; rfl
  | cons v vs ih =>
    intro s hsub
    cases hp : parse_airplane_data v with
    | none =>
      simp only [processRecords, hp]
      exact ih s (fun k hk => hsub k (by rwa [seenKeys_cons_none v vs hp]))
    | some d =>
      simp only [processRecords, hp]
      have hmem : d.icao24 ∈ s.map Prod.fst :=
        hsub d.icao24 (by rw [seenKeys_cons_some v vs d hp]; exact List.mem_cons_self _ _)
      cases hl : storeLookup s d.icao24 with
      | some a =>
        simp only [hl]
        rw [ih _ ?_]
        · exact storeSet_map_fst s d.icao24 (applyRecord d a)
        · intro k hk
          rw [storeSet_map_fst]
          exact hsub k (by rw [seenKeys_cons_some v vs d hp]; exact List.mem_cons_of_mem _ hk)
      | none =>
        exact absurd ((storeLookup_isSome_iff s d.icao24).mpr hmem) (by simp [hl])

theorem processRecords_lookup (raw : List StateVector) :
    ∀ (s : Store) (k : String),
      storeLookup (processRecords s raw).1 k =
        runRecords (storeLookup s k) (recordsFor k raw) := by
  induction raw with
  | nil =>
    intro s k
    have : recordsFor k [] = [] := by simp [recordsFor]
    rw [this]
    cases hl : storeLookup s k <;> simp [processRecords, runRecords, hl]
  | cons v vs ih =>
    intro s k
    cases hp : parse_airplane_data v with
    | none =>
      simp only [processRecords, hp]
      rw [ih, recordsFor_cons_none k v vs hp]
    | some d =>
      simp only [processRecords, hp]
      by_cases hk : d.icao24 = k
      · subst hk
        rw [recordsFor_cons_some_eq d.icao24 v vs d hp rfl]
        cases hl : storeLookup s d.icao24 with
        | some a =>
          simp only [hl]
          rw [ih _ d.icao24, storeLookup_set_self s d.icao24 (applyRecord d a) a hl]
          simp [runRecords, List.foldl_cons]
        | none =>
          simp only [hl]
          rw [ih _ d.icao24, storeLookup_append_self s d.icao24 (planeFromRecord d) hl]
          simp [runRecords]
      · rw [recordsFor_cons_some_ne k v vs d hp hk]
        have hk' : k ≠ d.icao24 := fun h => hk h.symm
        cases hl : storeLookup s d.icao24 with
        | some a =>
          simp only [hl]
          rw [ih _ k, storeLookup_set_ne _ _ _ _ hk']
        | none =>
          simp only [hl]
          rw [ih _ k, storeLookup_append_ne _ _ _ _ hk']

/-- Claim C3, counterexample: with the Asia bounds, the 1200 by 800 viewport,
zoom 1 and pan (0, 0), `geo_to_screen` at Tokyo (lat 35.68, lon 139.76)
computes exactly (1063, 237), which is 139 pixels away in x and 74 pixels
away in y from the claimed approximate value (924, 311) - far beyond any
rounding tolerance. -/
theorem claim_C3_counterexample :
    CoordinateTransformer.geo_to_screen asiaTransformer 35.68 139.76 = some (1063, 237) ∧
    (1063 : ℤ) - 924 ≥ 100 ∧ (311 : ℤ) - 237 ≥ 50 := by
  refine ⟨?_, by norm_num, by norm_num⟩
  norm_num [CoordinateTransformer.geo_to_screen, asiaTransformer, CoordinateTransformer.init,
    ASIA_MIN_LAT, ASIA_MAX_LAT, ASIA_MIN_LON, ASIA_MAX_LON, SCREEN_WIDTH, SCREEN_HEIGHT, pyInt]

/-- Claim C3 (amended): with bounds lat [-10, 55] and lon [60, 150], viewport
1200 by 800, zoom 1 and pan (0, 0), `geo_to_screen` applied to lat 35.68 and
lon 139.76 returns x = 1063 and y = 237 (not x = 924, y = 311). -/
theorem claim_C3_amended :
    CoordinateTransformer.geo_to_screen asiaTransformer 35.68 139.76 = some (1063, 237) := by
  norm_num [CoordinateTransformer.geo_to_screen, asiaTransformer, CoordinateTransformer.init,
    ASIA_MIN_LAT, ASIA_MAX_LAT, ASIA_MIN_LON, ASIA_MAX_LON, SCREEN_WIDTH, SCREEN_HEIGHT, pyInt]

/-- Claim C4, counterexample: constructing the transformer with degenerate
latitude bounds (min_lat = max_lat = 5) succeeds - the constructor stores the
degenerate bounds verbatim, with no fail-fast validation - and the
division-by-zero error surfaces only at the first `geo_to_screen` call
(modelled by the `none` result, standing for Python's ZeroDivisionError). -/
theorem claim_C4_counterexample :
    (CoordinateTransformer.init 5 5 60 150 1200 800 1 0 0).max_lat =
      (CoordinateTransformer.init 5 5 60 150 1200 800 1 0 0).min_lat ∧
    CoordinateTransformer.geo_to_screen
      (CoordinateTransformer.init 5 5 60 150 1200 800 1 0 0) 5 100 = none := by
  refine ⟨rfl, ?_⟩
  norm_num [CoordinateTransformer.geo_to_screen, CoordinateTransformer.init]

/-- Claim C4 (amended): `CoordinateTransformer.__init__` performs no
validation - it stores even degenerate bounds verbatim and construction always
succeeds - and with degenerate bounds every later `geo_to_screen` call fails
with a division-by-zero error (it never silently returns NaN or garbage
coordinates, but the failure is at call time, not at construction time). -/
theorem claim_C4_amended (min_lat max_lat min_lon max_lon zoom pan_x pan_y lat lon : ℚ)
    (w h : ℕ) (hdeg : max_lat = min_lat ∨ max_lon = min_lon) :
    (CoordinateTransformer.init min_lat max_lat min_lon max_lon w h zoom pan_x pan_y).min_lat
      = min_lat ∧
    (CoordinateTransformer.init min_lat max_lat min_lon max_lon w h zoom pan_x pan_y).max_lat
      = max_lat ∧
    (CoordinateTransformer.init min_lat max_lat min_lon max_lon w h zoom pan_x pan_y).min_lon
      = min_lon ∧
    (CoordinateTransformer.init min_lat max_lat min_lon max_lon w h zoom pan_x pan_y).max_lon
      = max_lon ∧
    CoordinateTransformer.geo_to_screen
      (CoordinateTransformer.init min_lat max_lat min_lon max_lon w h zoom pan_x pan_y)
      lat lon = none := by
  refine ⟨rfl, rfl, rfl, rfl, ?_⟩
  rcases hdeg with h1 | h1 <;>
    simp [CoordinateTransformer.geo_to_screen, CoordinateTransformer.init, h1]

/-- Claim C4, witness: the amended statement at the concrete degenerate bounds
min_lat = max_lat = 7. -/
theorem claim_C4_witness :
    (CoordinateTransformer.init 7 7 60 150 1200 800 1 0 0).min_lat = 7 ∧
    (CoordinateTransformer.init 7 7 60 150 1200 800 1 0 0).max_lat = 7 ∧
    (CoordinateTransformer.init 7 7 60 150 1200 800 1 0 0).min_lon = 60 ∧
    (CoordinateTransformer.init 7 7 60 150 1200 800 1 0 0).max_lon = 150 ∧
    CoordinateTransformer.geo_to_screen
      (CoordinateTransformer.init 7 7 60 150 1200 800 1 0 0) 20 100 = none :=
  claim_C4_amended 7 7 60 150 1 0 0 20 100 1200 800 (Or.inl rfl)

theorem runTickRequested_gate (st : AppState) (now : ℚ) (o : FetchOutcome)
    (h : runTickRequested st now o = true) :
    API_UPDATE_INTERVAL ≤ now - st.last_api_update := by
  by_cases hg : API_UPDATE_INTERVAL ≤ now - st.last_api_update
  · exact hg
  · simp [runTickRequested, hg] at h

theorem runTick_last_api_of_requested (st : AppState) (now : ℚ) (o : FetchOutcome)
    (h : runTickRequested st now o = true) :
    (runTick st now o).last_api_update = now := by
  have hg := runTickRequested_gate st now o h
  simp [runTick, hg]

theorem runTick_last_api_cases (st : AppState) (now : ℚ) (o : FetchOutcome) :
    (runTick st now o).last_api_update = now ∨
    (runTick st now o).last_api_update = st.last_api_update := by
  by_cases hg : API_UPDATE_INTERVAL ≤ now - st.last_api_update
  · left; simp [runTick, hg]
  · right; simp [runTick, hg]

theorem runTicks_last_api_ge (evs : List (ℚ × FetchOutcome)) :
    ∀ (st : AppState) (t : ℚ), t ≤ st.last_api_update → (∀ e ∈ evs, t ≤ e.1) →
      t ≤ (runTicks st evs).last_api_update := by
  induction evs with
  | nil => intro st t h _; simpa [runTicks] using h
  | cons e evs ih =>
    intro st t h hall
    have h1 : t ≤ (runTick st e.1 e.2).last_api_update := by
      rcases runTick_last_api_cases st e.1 e.2 with hc | hc
      · rw [hc]; exact hall e (List.mem_cons_self e evs)
      · rw [hc]; exact h
    have hstep : runTicks st (e :: evs) = runTicks (runTick st e.1 e.2) evs := by
      simp [runTicks]
    rw [hstep]
    exact ih _ t h1 (fun e' he' => hall e' (List.mem_cons_of_mem e he'))

/-- Claim C5: at the tick level of the main loop, a fresh feed request is
issued only when `now - last_api_update ≥ API_UPDATE_INTERVAL`; whenever a
request is issued, `last_api_update` is set to `now` - and indeed the new
`last_api_update` is the same for a successful and a failed request, so this
happens regardless of whether the request succeeds; consequently, a request at
tick time t1 followed (through any sequence of further ticks at times ≥ t1) by
the next request at tick time t2 satisfies t2 - t1 ≥ API_UPDATE_INTERVAL: the
feed is never queried faster than once per `API_UPDATE_INTERVAL`. -/
theorem claim_C5_tick_rate_floor :
    (∀ (st : AppState) (now : ℚ) (o : FetchOutcome),
      runTickRequested st now o = true →
        API_UPDATE_INTERVAL ≤ now - st.last_api_update) ∧
    (∀ (st : AppState) (now : ℚ) (o : FetchOutcome),
      runTickRequested st now o = true → (runTick st now o).last_api_update = now) ∧
    (∀ (st : AppState) (now : ℚ) (d : List StateVector),
      (runTick st now (.success d)).last_api_update
        = (runTick st now .failure).last_api_update) ∧
    (∀ (st : AppState) (t1 : ℚ) (o1 : FetchOutcome) (evs : List (ℚ × FetchOutcome))
        (t2 : ℚ) (o2 : FetchOutcome),
      runTickRequested st t1 o1 = true →
      (∀ e ∈ evs, t1 ≤ e.1) →
      runTickRequested (runTicks (runTick st t1 o1) evs) t2 o2 = true →
      API_UPDATE_INTERVAL ≤ t2 - t1) := by
  refine ⟨runTickRequested_gate, runTick_last_api_of_requested, ?_, ?_⟩
  · intro st now d
    by_cases hg : API_UPDATE_INTERVAL ≤ now - st.last_api_update <;> simp [runTick, hg]
  · intro st t1 o1 evs t2 o2 hreq1 hmono hreq2
    have hset : (runTick st t1 o1).last_api_update = t1 :=
      runTick_last_api_of_requested st t1 o1 hreq1
    have hge : t1 ≤ (runTicks (runTick st t1 o1) evs).last_api_update :=
      runTicks_last_api_ge evs _ t1 (le_of_eq hset.symm) hmono
    have hg2 := runTickRequested_gate _ t2 o2 hreq2
    linarith

/-- Claim C5, witness: the tick-level guarantees exercised on a concrete run -
a first request at t = 0 (from an idle state with `last_api_update = -100`),
no intermediate ticks, and a second request at t = 20, which is indeed at
least `API_UPDATE_INTERVAL` after the first. -/
theorem claim_C5_witness :
    API_UPDATE_INTERVAL ≤ (0 : ℚ) - (AppState.mk [] ⟨-100, []⟩ (-100)).last_api_update ∧
    (runTick (AppState.mk [] ⟨-100, []⟩ (-100)) 0 (.success [])).last_api_update = 0 ∧
    (runTick (AppState.mk [] ⟨-100, []⟩ (-100)) 0 (.success [])).last_api_update
      = (runTick (AppState.mk [] ⟨-100, []⟩ (-100)) 0 .failure).last_api_update ∧
    API_UPDATE_INTERVAL ≤ (20 : ℚ) - 0 :=
  ⟨claim_C5_tick_rate_floor.1 (AppState.mk [] ⟨-100, []⟩ (-100)) 0 (.success [])
     (by norm_num [runTickRequested, AviationAPIFetcher.fetch_airplanes, API_UPDATE_INTERVAL]),
   claim_C5_tick_rate_floor.2.1 (AppState.mk [] ⟨-100, []⟩ (-100)) 0 (.success [])
     (by norm_num [runTickRequested, AviationAPIFetcher.fetch_airplanes, API_UPDATE_INTERVAL]),
   claim_C5_tick_rate_floor.2.2.1 (AppState.mk [] ⟨-100, []⟩ (-100)) 0 [],
   claim_C5_tick_rate_floor.2.2.2 (AppState.mk [] ⟨-100, []⟩ (-100)) 0 (.success []) [] 20
     (.success [])
     (by norm_num [runTickRequested, AviationAPIFetcher.fetch_airplanes, API_UPDATE_INTERVAL])
     (by simp)
     (by norm_num [runTicks, runTickRequested, runTick, AviationAPIFetcher.fetch_airplanes,
       API_UPDATE_INTERVAL, update_airplanes, processRecords, keepPred, seenKeys])⟩

/-- Claim C9: the parser returns `none` (the record is skipped) when longitude
or latitude is missing or the position is outside the Asia bounds; the record
loop of `update_airplanes` skips such a record and continues with the
remaining records of the same snapshot; and a failed fetch returns the
previously cached snapshot with the fetcher state unchanged, instead of
raising. -/
theorem claim_C9_malformed_records :
    (∀ v : StateVector, v.longitude = none → parse_airplane_data v = none) ∧
    (∀ v : StateVector, v.latitude = none → parse_airplane_data v = none) ∧
    (∀ (v : StateVector) (lon lat : ℚ), v.longitude = some lon → v.latitude = some lat →
      ¬ (ASIA_MIN_LAT ≤ lat ∧ lat ≤ ASIA_MAX_LAT ∧ ASIA_MIN_LON ≤ lon ∧ lon ≤ ASIA_MAX_LON) →
      parse_airplane_data v = none) ∧
    (∀ (s : Store) (v : StateVector) (vs : List StateVector),
      parse_airplane_data v = none → processRecords s (v :: vs) = processRecords s vs) ∧
    (∀ (f : AviationAPIFetcher) (now : ℚ),
      (f.fetch_airplanes now .failure).state = f ∧
      (f.fetch_airplanes now .failure).data = f.cache_data) := by
  refine ⟨?_, ?_, ?_, ?_, ?_⟩
  · intro v h
    simp [parse_airplane_data, h]
  · intro v h
    cases hlon : v.longitude <;> simp [parse_airplane_data, h, hlon]
  · intro v lon lat h1 h2 hout
    simp [parse_airplane_data, h1, h2, hout]
  · intro s v vs h
    simp [processRecords, h]
  · intro f now
    unfold AviationAPIFetcher.fetch_airplanes
    by_cases hlt : now - f.last_fetch_time < API_UPDATE_INTERVAL <;> simp [hlt]

/-- Claim C9, witness: the guarantees instantiated on concrete records -
a record with no longitude, one with no latitude, one outside the region -
and a concrete failed fetch. -/
theorem claim_C9_witness :
    parse_airplane_data vNoLon = none ∧
    parse_airplane_data vNoLat = none ∧
    parse_airplane_data vOut = none ∧
    processRecords [] (vNoLon :: [recA]) = processRecords [] [recA] ∧
    (AviationAPIFetcher.fetch_airplanes ⟨0, [recA]⟩ 50 .failure).state = ⟨0, [recA]⟩ ∧
    (AviationAPIFetcher.fetch_airplanes ⟨0, [recA]⟩ 50 .failure).data = [recA] :=
  ⟨claim_C9_malformed_records.1 vNoLon rfl,
   claim_C9_malformed_records.2.1 vNoLat rfl,
   claim_C9_malformed_records.2.2.1 vOut 0 0 rfl rfl
     (by norm_num [ASIA_MIN_LAT, ASIA_MAX_LAT, ASIA_MIN_LON, ASIA_MAX_LON]),
   claim_C9_malformed_records.2.2.2.1 [] vNoLon [recA]
     (claim_C9_malformed_records.1 vNoLon rfl),
   (claim_C9_malformed_records.2.2.2.2 ⟨0, [recA]⟩ 50).1,
   (claim_C9_malformed_records.2.2.2.2 ⟨0, [recA]⟩ 50).2⟩

/-- Claim C2 (amended): an airplane in the store that is absent from the
current snapshot is retained by `update_airplanes` precisely when at most 60
seconds have passed since `last_api_update` - the timestamp of the previous
reconcile attempt, which the main loop refreshes regardless of fetch success -
and evicted otherwise.  In particular a single missed or empty snapshot never
causes eviction while reconciles run within the grace window, but the window
is NOT measured from the last successful snapshot. -/
theorem claim_C2_amended (s : Store) (raw : List StateVector) (now last : ℚ) (k : String)
    (hin : (storeLookup s k).isSome = true) (habsent : k ∉ seenKeys raw) :
    ((storeLookup (update_airplanes s raw now last) k).isSome = true ↔
      now - last ≤ 60) := by
  unfold update_airplanes
  rw [processRecords_snd raw s,
    storeLookup_filter (keepPred (seenKeys raw) now last) _ k,
    processRecords_lookup_not_seen raw s k habsent]
  by_cases hk : keepPred (seenKeys raw) now last k = true
  · rw [if_pos hk]
    simp only [keepPred, decide_eq_true_eq] at hk
    rcases hk with hk | hk
    · exact absurd hk habsent
    · simp [hin, hk]
  · rw [if_neg hk]
    simp only [keepPred, decide_eq_true_eq, not_or] at hk
    simp [hk.2]

/-- Claim C2, witness: the amended retention rule at a concrete store holding
one airplane, an empty snapshot and a reconcile 0 seconds after the previous
one. -/
theorem claim_C2_witness :
    ((storeLookup (update_airplanes [("abc", planeRecA)] [] 0 0) "abc").isSome = true ↔
      (0 : ℚ) - 0 ≤ 60) :=
  claim_C2_amended [("abc", planeRecA)] [] 0 0 "abc" (by simp [storeLookup])
    (by simp [seenKeys])

/-!  Evaluation of the claim C2 trace. -/

theorem planeRecAStep_interpolate (k : ℕ) (h : k < INTERPOLATION_STEPS) :
    (planeRecAStep k).interpolate = planeRecAStep (k + 1) := by
  norm_num [planeRecAStep, planeRecA, Airplane.init, Airplane.interpolate,
    linear_interpolation, h]

theorem c2s1_eq : c2s1 = ⟨[("abc", planeRecAStep 0)], ⟨0, [recA]⟩, 0⟩ := by
  norm_num [c2s1, c2s0, runTick, API_UPDATE_INTERVAL, AviationAPIFetcher.fetch_airplanes,
    update_airplanes, processRecords, parse_airplane_data, recA, storeLookup, keepPred,
    seenKeys, planeFromRecord, planeRecAStep, planeRecA, ASIA_MIN_LAT, ASIA_MAX_LAT,
    ASIA_MIN_LON, ASIA_MAX_LON, List.filter_cons, List.filterMap_cons, Airplane.init]
  simp

theorem c2s2_eq : c2s2 = ⟨[("abc", planeRecAStep 1)], ⟨10, []⟩, 10⟩ := by
  rw [c2s2, c2s1_eq]
  norm_num [runTick, API_UPDATE_INTERVAL, AviationAPIFetcher.fetch_airplanes,
    update_airplanes, processRecords, storeLookup, keepPred, List.filter_cons,
    planeRecAStep_interpolate 0 (by norm_num [INTERPOLATION_STEPS])]

theorem c2s3_eq : c2s3 = ⟨[("abc", planeRecAStep 2)], ⟨10, []⟩, 20⟩ := by
  rw [c2s3, c2s2_eq]
  norm_num [runTick, API_UPDATE_INTERVAL, AviationAPIFetcher.fetch_airplanes,
    update_airplanes, processRecords, storeLookup, keepPred, List.filter_cons,
    planeRecAStep_interpolate 1 (by norm_num [INTERPOLATION_STEPS])]

theorem c2s4_eq : c2s4 = ⟨[("abc", planeRecAStep 3)], ⟨10, []⟩, 30⟩ := by
  rw [c2s4, c2s3_eq]
  norm_num [runTick, API_UPDATE_INTERVAL, AviationAPIFetcher.fetch_airplanes,
    update_airplanes, processRecords, storeLookup, keepPred, List.filter_cons,
    planeRecAStep_interpolate 2 (by norm_num [INTERPOLATION_STEPS])]

theorem c2s5_eq : c2s5 = ⟨[("abc", planeRecAStep 4)], ⟨10, []⟩, 40⟩ := by
  rw [c2s5, c2s4_eq]
  norm_num [runTick, API_UPDATE_INTERVAL, AviationAPIFetcher.fetch_airplanes,
    update_airplanes, processRecords, storeLookup, keepPred, List.filter_cons,
    planeRecAStep_interpolate 3 (by norm_num [INTERPOLATION_STEPS])]

theorem c2s6_eq : c2s6 = ⟨[("abc", planeRecAStep 5)], ⟨10, []⟩, 50⟩ := by
  rw [c2s6, c2s5_eq]
  norm_num [runTick, API_UPDATE_INTERVAL, AviationAPIFetcher.fetch_airplanes,
    update_airplanes, processRecords, storeLookup, keepPred, List.filter_cons,
    planeRecAStep_interpolate 4 (by norm_num [INTERPOLATION_STEPS])]

theorem c2s7_eq : c2s7 = ⟨[("abc", planeRecAStep 6)], ⟨10, []⟩, 60⟩ := by
  rw [c2s7, c2s6_eq]
  norm_num [runTick, API_UPDATE_INTERVAL, AviationAPIFetcher.fetch_airplanes,
    update_airplanes, processRecords, storeLookup, keepPred, List.filter_cons,
    planeRecAStep_interpolate 5 (by norm_num [INTERPOLATION_STEPS])]

theorem c2s8_eq : c2s8 = ⟨[("abc", planeRecAStep 7)], ⟨10, []⟩, 70⟩ := by
  rw [c2s8, c2s7_eq]
  norm_num [runTick, API_UPDATE_INTERVAL, AviationAPIFetcher.fetch_airplanes,
    update_airplanes, processRecords, storeLookup, keepPred, List.filter_cons,
    planeRecAStep_interpolate 6 (by norm_num [INTERPOLATION_STEPS])]

theorem c2s9_eq : c2s9 = ⟨[("abc", planeRecAStep 8)], ⟨10, []⟩, 80⟩ := by
  rw [c2s9, c2s8_eq]
  norm_num [runTick, API_UPDATE_INTERVAL, AviationAPIFetcher.fetch_airplanes,
    update_airplanes, processRecords, storeLookup, keepPred, List.filter_cons,
    planeRecAStep_interpolate 7 (by norm_num [INTERPOLATION_STEPS])]

/-- Claim C2, counterexample: in the trace `c2s0 .. c2s9` the last successful
snapshot is the one fetched at t = 10 (witnessed by `last_fetch_time = 10`),
and airplane "abc" is absent from every snapshot from t = 10 on (the cache is
empty).  At the reconcile at t = 80 - the first reconcile at which the time
since the last successful snapshot, 70 seconds, exceeds the 60-second grace
window - the airplane is nevertheless retained, because the code measures the
window from `last_api_update` (the previous reconcile, 10 seconds earlier,
refreshed regardless of fetch success), not from the last successful
snapshot.  So the claim's eviction rule is violated. -/
theorem claim_C2_counterexample :
    c2s9.api_fetcher.last_fetch_time = 10 ∧
    c2s9.api_fetcher.cache_data = [] ∧
    (80 : ℚ) - 10 > 60 ∧
    (storeLookup c2s9.airplanes "abc").isSome = true := by
  rw [c2s9_eq]
  refine ⟨rfl, rfl, by norm_num, ?_⟩
  simp [storeLookup]

/-!  Lemmas for the idempotence of the reconcile step (claim C6). -/

theorem foldl_applyRecord_display (ds : List AirplaneData) :
    ∀ a : Airplane,
      (ds.foldl (fun a d => applyRecord d a) a).display_lat = a.display_lat ∧
      (ds.foldl (fun a d => applyRecord d a) a).display_lon = a.display_lon := by
  induction ds with
  | nil => intro a; exact ⟨rfl, rfl⟩
  | cons d ds ih =>
    intro a
    rw [List.foldl_cons]
    obtain ⟨h1, h2⟩ := ih (applyRecord d a)
    exact ⟨h1.trans rfl, h2.trans rfl⟩

theorem getLast?_cons_getD (d : AirplaneData) (ds : List AirplaneData) :
    (d :: ds).getLast? = some (ds.getLast?.getD d) := by
  induction ds generalizing d with
  | nil => rfl
  | cons d2 ds2 ih =>
    rw [List.getLast?_cons_cons, ih d2]
    simp

theorem foldl_applyRecord_target (ds : List AirplaneData) :
    ∀ a : Airplane,
      (ds.foldl (fun a d => applyRecord d a) a).target_lat =
        ((ds.getLast?).map AirplaneData.latitude).getD a.target_lat ∧
      (ds.foldl (fun a d => applyRecord d a) a).target_lon =
        ((ds.getLast?).map AirplaneData.longitude).getD a.target_lon := by
  induction ds with
  | nil => intro a; simp
  | cons d ds ih =>
    intro a
    rw [List.foldl_cons, getLast?_cons_getD]
    obtain ⟨h1, h2⟩ := ih (applyRecord d a)
    constructor
    · rw [h1]
      cases hl : ds.getLast? with
      | none => simp [applyRecord, Airplane.update_target]
      | some dl => simp [hl]
    · rw [h2]
      cases hl : ds.getLast? with
      | none => simp [applyRecord, Airplane.update_target]
      | some dl => simp [hl]

theorem runRecords_nil_eq (o : Option Airplane) : runRecords o [] = o := by
  cases o <;> rfl

theorem runRecords_cons_eq (o : Option Airplane) (d : AirplaneData) (ds : List AirplaneData) :
    ∃ a1 : Airplane, runRecords o (d :: ds) = some a1 ∧
      a1.target_lat = ((ds.getLast?).map AirplaneData.latitude).getD d.latitude ∧
      a1.target_lon = ((ds.getLast?).map AirplaneData.longitude).getD d.longitude := by
  cases o with
  | none =>
    refine ⟨_, rfl, ?_, ?_⟩
    · obtain ⟨h1, _⟩ := foldl_applyRecord_target ds (planeFromRecord d)
      rw [h1]; rfl
    · obtain ⟨_, h2⟩ := foldl_applyRecord_target ds (planeFromRecord d)
      rw [h2]; rfl
  | some a =>
    refine ⟨_, rfl, ?_, ?_⟩
    · obtain ⟨h1, _⟩ := foldl_applyRecord_target (d :: ds) a
      rw [h1, getLast?_cons_getD]
      cases hl : ds.getLast? <;> simp [hl]
    · obtain ⟨_, h2⟩ := foldl_applyRecord_target (d :: ds) a
      rw [h2, getLast?_cons_getD]
      cases hl : ds.getLast? <;> simp [hl]

theorem runRecords_twice_posProj (o : Option Airplane) (ds : List AirplaneData) :
    (runRecords (runRecords o ds) ds).map posProj = (runRecords o ds).map posProj := by
  cases ds with
  | nil => rw [runRecords_nil_eq]
  | cons d ds =>
    obtain ⟨a1, h1, ht1, ht2⟩ := runRecords_cons_eq o d ds
    rw [h1]
    show (some ((d :: ds).foldl (fun a d => applyRecord d a) a1)).map posProj
      = (some a1).map posProj
    simp only [Option.map_some']
    refine congrArg some ?_
    obtain ⟨hd1, hd2⟩ := foldl_applyRecord_display (d :: ds) a1
    obtain ⟨hg1, hg2⟩ := foldl_applyRecord_target (d :: ds) a1
    unfold posProj
    rw [hd1, hd2, hg1, hg2, getLast?_cons_getD]
    cases hl : ds.getLast? with
    | none => simp [hl] at ht1 ht2 ⊢; rw [ht1, ht2]; exact ⟨rfl, rfl⟩
    | some dl => simp [hl] at ht1 ht2 ⊢; rw [ht1, ht2]; exact ⟨rfl, rfl⟩

/-- Claim C6: running `update_airplanes` twice with an identical snapshot (and
the same timestamps) is idempotent with respect to the entity count and every
entity's display and target positions: after the second run the store has the
same length, and lookup of any key yields the same display/target quadruple as
after the first run. -/
theorem claim_C6_idempotent (s : Store) (raw : List StateVector) (now last : ℚ) :
    (update_airplanes (update_airplanes s raw now last) raw now last).length =
      (update_airplanes s raw now last).length ∧
    (∀ k : String,
      (storeLookup (update_airplanes (update_airplanes s raw now last) raw now last) k).map
          posProj
        = (storeLookup (update_airplanes s raw now last) k).map posProj) := by
  have hdef : ∀ st : Store, update_airplanes st raw now last
      = (processRecords st raw).1.filter (fun p => keepPred (seenKeys raw) now last p.1) := by
    intro st
    simp only [update_airplanes, processRecords_snd raw st]
  have hs1 : update_airplanes s raw now last
      = (processRecords s raw).1.filter (fun p => keepPred (seenKeys raw) now last p.1) :=
    hdef s
  have hkeep1 : ∀ p ∈ update_airplanes s raw now last,
      keepPred (seenKeys raw) now last p.1 = true := by
    intro p hp
    rw [hs1] at hp
    exact (List.mem_filter.mp hp).2
  have hseen_mem : ∀ k ∈ seenKeys raw,
      k ∈ (update_airplanes s raw now last).map Prod.fst := by
    intro k hk
    have hne : recordsFor k raw ≠ [] := (mem_seenKeys_iff k raw).mp hk
    have hlk : (storeLookup (processRecords s raw).1 k).isSome = true := by
      rw [processRecords_lookup raw s k]
      cases hr : recordsFor k raw with
      | nil => exact absurd hr hne
      | cons d ds =>
        obtain ⟨a1, h1, -, -⟩ := runRecords_cons_eq (storeLookup s k) d ds
        rw [h1]; rfl
    have hmem1 : k ∈ (processRecords s raw).1.map Prod.fst :=
      (storeLookup_isSome_iff _ k).mp hlk
    obtain ⟨p, hp, hpk⟩ := List.mem_map.mp hmem1
    rw [hs1]
    refine List.mem_map.mpr ⟨p, List.mem_filter.mpr ⟨hp, ?_⟩, hpk⟩
    rw [hpk]
    simp [keepPred, hk]
  have hs2 : update_airplanes (update_airplanes s raw now last) raw now last
      = (processRecords (update_airplanes s raw now last) raw).1.filter
          (fun p => keepPred (seenKeys raw) now last p.1) :=
    hdef (update_airplanes s raw now last)
  have hfst2 : (processRecords (update_airplanes s raw now last) raw).1.map Prod.fst
      = (update_airplanes s raw now last).map Prod.fst :=
    processRecords_map_fst raw _ hseen_mem
  have hallkeep2 : ∀ p ∈ (processRecords (update_airplanes s raw now last) raw).1,
      keepPred (seenKeys raw) now last p.1 = true := by
    intro p hp
    have hpf : p.1 ∈ (update_airplanes s raw now last).map Prod.fst := by
      rw [← hfst2]
      exact List.mem_map.mpr ⟨p, hp, rfl⟩
    obtain ⟨q, hq, hqk⟩ := List.mem_map.mp hpf
    have hkq := hkeep1 q hq
    rw [hqk] at hkq
    exact hkq
  have hs2_id : update_airplanes (update_airplanes s raw now last) raw now last
      = (processRecords (update_airplanes s raw now last) raw).1 := by
    rw [hs2]
    exact List.filter_eq_self.mpr hallkeep2
  constructor
  · have hlen := congrArg List.length hfst2
    simp only [List.length_map] at hlen
    rw [hs2_id]
    exact hlen
  · intro k
    by_cases hk : keepPred (seenKeys raw) now last k = true
    · have e1 : storeLookup (update_airplanes s raw now last) k
          = storeLookup (processRecords s raw).1 k := by
        rw [hs1, storeLookup_filter (keepPred (seenKeys raw) now last), if_pos hk]
      have e2 : storeLookup (update_airplanes (update_airplanes s raw now last) raw now last) k
          = runRecords (storeLookup (update_airplanes s raw now last) k) (recordsFor k raw) := by
        rw [hs2_id, processRecords_lookup raw _ k]
      rw [e2, e1, processRecords_lookup raw s k]
      exact runRecords_twice_posProj (storeLookup s k) (recordsFor k raw)
    · have hnotseen : k ∉ seenKeys raw := fun hmem => hk (by simp [keepPred, hmem])
      have hrec : recordsFor k raw = [] := by
        by_contra hne
        exact hnotseen ((mem_seenKeys_iff k raw).mpr hne)
      have e1 : storeLookup (update_airplanes s raw now last) k = none := by
        rw [hs1, storeLookup_filter (keepPred (seenKeys raw) now last), if_neg hk]
      have e2 : storeLookup (update_airplanes (update_airplanes s raw now last) raw now last) k
          = none := by
        rw [hs2_id, processRecords_lookup raw _ k, hrec, runRecords_nil_eq]
        exact e1
      rw [e1, e2]
